import Mathlib

/-!
# Verification of the kubemix aggregation-and-redaction pipeline

Shallow embedding of the core of the kubemix repository:

* `src/core/processing/resourceProcessor.ts` — secret redaction over YAML
  and JSON manifests (`processResourceManifest`, `processJsonResourceManifest`,
  `redactSecretData`);
* `src/core/kubernetes/resourceFilter.ts` — scope resolution
  (`getNamespacesToQuery`) and the pod health heuristic (`isPodFailing`);
* the filter-array merging part of `mergeConfigs` (config loader);
* `src/core/output/resourceTreeGenerate.ts` — `generateResourceTreeString`;
* the per-namespace fan-out and the metrics assembly of `aggregateResources`
  in `src/core/kubernetes/kubectlWrapper.ts`.

Parsed YAML/JSON documents are represented by the inductive `Json` below
(the image of `JSON.parse` / `Document.toJSON`): `null`, booleans, integers,
strings, arrays and insertion-ordered string-keyed objects.  JavaScript
`undefined` (absent field) is conflated with `null`: both are falsy and
neither is an object, which is the only way the embedded code ever looks at
them.  Numeric values are modelled as integers; none of the verified
properties involves fractional numbers.
-/

namespace Kubemix

/-- A parsed JSON/YAML value, as produced by `JSON.parse` or by the `yaml`
package's `Document.toJSON`.  Object fields are kept in insertion order,
exactly as JavaScript objects preserve string-key insertion order. -/
inductive Json where
  | null : Json
  | bool (b : Bool) : Json
  | num (n : Int) : Json
  | str (s : String) : Json
  | arr (elems : List Json) : Json
  | obj (fields : List (String × Json)) : Json

/-- JavaScript truthiness of a parsed value (`undefined`/`null`, `false`,
`0` and `""` are falsy; every object and array, even empty, is truthy). -/
def jtruthy : Json → Bool
  | Json.null => false
  | Json.bool b => b
  | Json.num n => n != 0
  | Json.str s => s != ""
  | Json.arr _ => true
  | Json.obj _ => true

/-- Field lookup on an object field list; first occurrence wins, anything
missing is `null` (modelling JavaScript `undefined`). -/
def lookupJ : List (String × Json) → String → Json
  | [], _ => Json.null
  | (k, v) :: rest, key => if k = key then v else lookupJ rest key

/-- Property access `x.key`: `null` on non-objects (JavaScript yields
`undefined` on primitives and the code only ever tests such results for
truthiness or compares them). -/
def jGet : Json → String → Json
  | Json.obj fs, key => lookupJ fs key
  | _, _ => Json.null

/-- The fixed placeholder `SECRET_REDACTION_PLACEHOLDER` from
`resourceProcessor.ts`. -/
def SECRET_REDACTION_PLACEHOLDER : String := "*****"

/-- Replace every value of an object by the redaction placeholder, keeping the
keys; non-objects are left alone.  This is the effect of the
`dataNode.set(key, SECRET_REDACTION_PLACEHOLDER)` loop in `redactSecretData`
(guarded there by `yaml.isMap`). -/
def maskObjValues : Json → Json
  | Json.obj fs => Json.obj (fs.map (fun kv => (kv.1, Json.str SECRET_REDACTION_PLACEHOLDER)))
  | j => j

/-- Does the field list carry `kind: "Secret"`?  (`json?.kind === 'Secret'`.) -/
def isSecretKind (fs : List (String × Json)) : Bool :=
  match lookupJ fs "kind" with
  | Json.str s => s = "Secret"
  | _ => false

/-- Is the value a mapping?  (`yaml.isMap` on the `data` node; on the YAML
path `doc.get('data')` yields a map/sequence node or a plain scalar value,
which the `Json` image renders as `obj`/`arr`/scalar.) -/
def isObjJ : Json → Bool
  | Json.obj _ => true
  | _ => false

mutual

/-- Value-level model of the recursive `processDocument` closure of
`processResourceManifest` (YAML path), acting on the `toJSON` image of a
parsed document.  If the document has `kind: Secret` and a truthy `data`
field, `redactSecretData` is called: it masks the values of a *map* `data`
node and — only after passing that map check, i.e. only when `data` is a
map — also masks a map `stringData` node; a truthy non-map `data` makes
`redactSecretData` return early, leaving both `data` and `stringData`
untouched.  Independently, if the document has an `items` sequence, every
map item is processed recursively and spliced back in place (non-map items
are kept as they are, and `yaml.isMap` guards mean nothing throws on this
path).  Duplicate keys inside one object are outside the model (the real
parser never produces them). -/
def processDocV : Json → Json
  | Json.obj fs =>
    Json.obj (processFieldsV (isSecretKind fs && jtruthy (lookupJ fs "data"))
      (isSecretKind fs && jtruthy (lookupJ fs "data") && isObjJ (lookupJ fs "data")) fs)
  | j => j

/-- Field-by-field action of `processDocument` on one document's fields.
`maskData` says `redactSecretData` was called (Secret with truthy `data`);
`maskStringData` says it got past the `data` map check. -/
def processFieldsV (maskData maskStringData : Bool) :
    List (String × Json) → List (String × Json)
  | [] => []
  | (k, v) :: rest =>
    (k, processFieldV maskData maskStringData k v) :: processFieldsV maskData maskStringData rest

/-- Action of `processDocument` on a single field of a document. -/
def processFieldV (maskData maskStringData : Bool) (k : String) (v : Json) : Json :=
  if maskData && k = "data" then maskObjValues v
  else if maskStringData && k = "stringData" then maskObjValues v
  else if k = "items" then
    match v with
    | Json.arr xs => Json.arr (processItemsV xs)
    | _ => v
  else v

/-- The `items` loop of `processDocument`: recurse into map items, keep the
rest. -/
def processItemsV : List Json → List Json
  | [] => []
  | x :: xs =>
    (match x with
      | Json.obj _ => processDocV x
      | _ => x) :: processItemsV xs

end

/-- The JSON path masks a Secret's `data` with a plain `for (const key in
item.data)` loop: objects get their values masked; a (truthy) array gets its
elements masked index by index.  A truthy primitive `data` (a non-empty
string) makes the assignment throw in the real strict-mode code, which the
caller's `catch` turns into returning the whole input unchanged; no claim
exercises that case, and the model leaves such values alone. -/
def maskDataJs : Json → Json
  | Json.obj fs => Json.obj (fs.map (fun kv => (kv.1, Json.str SECRET_REDACTION_PLACEHOLDER)))
  | Json.arr xs => Json.arr (xs.map (fun _ => Json.str SECRET_REDACTION_PLACEHOLDER))
  | j => j

/-- One iteration of the `items` loop of `processJsonResourceManifest` on
its non-throwing inputs: if the (object) item has `kind === 'Secret'` and a
truthy `data`, mask the `data` values.  Nothing else — in particular neither
`stringData` nor nested `items` is touched on the JSON path.  The full
model including the strict-mode throw paths is `redactJsonItemE` below;
the two agree wherever `redactJsonItemE` succeeds. -/
def redactJsonItem (item : Json) : Json :=
  match item with
  | Json.obj fs =>
    if isSecretKind fs && jtruthy (lookupJ fs "data") then
      Json.obj (fs.map (fun kv => (kv.1, if kv.1 = "data" then maskDataJs kv.2 else kv.2)))
    else Json.obj fs
  | _ => item

/-- The `for (const key in item.data) item.data[key] = PLACEHOLDER` loop
with its strict-mode failure: masking an object or array works; a truthy
primitive string `data` enumerates its indices and the index assignment
throws a `TypeError` (`none`); other truthy primitives enumerate nothing.
(The guard at the call site rules out falsy values.) -/
def maskDataJsE : Json → Option Json
  | Json.obj fs =>
    some (Json.obj (fs.map (fun kv => (kv.1, Json.str SECRET_REDACTION_PLACEHOLDER))))
  | Json.arr xs => some (Json.arr (xs.map (fun _ => Json.str SECRET_REDACTION_PLACEHOLDER)))
  | Json.str _ => none
  | j => some j

/-- One iteration of the `items` loop of `processJsonResourceManifest`,
throw paths included: a `null` (or absent) entry throws on `item.kind`
(`none`); an object entry with `kind === 'Secret'` and truthy `data` masks
that `data` (which itself can throw); any other entry is skipped.  A `none`
propagates to the surrounding `catch`, which returns the whole input
string unchanged. -/
def redactJsonItemE (item : Json) : Option Json :=
  match item with
  | Json.null => none
  | Json.obj fs =>
    if isSecretKind fs && jtruthy (lookupJ fs "data") then do
      let d ← maskDataJsE (lookupJ fs "data")
      some (Json.obj (fs.map (fun kv => (kv.1, if kv.1 = "data" then d else kv.2))))
    else some (Json.obj fs)
  | _ => some item

/-- Value-level model of the parsed-data transformation performed by
`processJsonResourceManifest`, throw paths included: if the top-level value
has an `items` array, apply `redactJsonItemE` to each element (a throw in
any iteration aborts the whole processing, `none`); otherwise, if the
top-level value is itself a Secret with truthy `data`, mask that `data`;
otherwise leave the value unchanged. -/
def redactJsonValueE : Json → Option Json
  | Json.obj fs =>
    match lookupJ fs "items" with
    | Json.arr xs =>
      match xs.mapM redactJsonItemE with
      | some ys =>
        some (Json.obj (fs.map (fun kv => (kv.1, if kv.1 = "items" then Json.arr ys else kv.2))))
      | none => none
    | _ =>
      if isSecretKind fs && jtruthy (lookupJ fs "data") then do
        let d ← maskDataJsE (lookupJ fs "data")
        some (Json.obj (fs.map (fun kv => (kv.1, if kv.1 = "data" then d else kv.2))))
      else some (Json.obj fs)
  | v => some v

/-! ## String-level machinery

The two redactors are string-to-string functions.  The JSON side round-trips
through `JSON.parse` / `JSON.stringify`; the YAML side through the `yaml`
package's `parseAllDocuments` / `Document.toString({ directives: true })`.
Both parsers below return `Option`: `none` models the parse failure that the
surrounding `try`/`catch` turns into returning the input unchanged.  The
YAML parser and printer model the fragment of the library actually exercised
by the theorems in this file — streams of flat block maps of plain scalars,
separated by `---` lines — and refuse (`none`) anything outside it. -/

/-- Split a list into the chunks delimited by elements satisfying `isSep`
(JavaScript `split` semantics: `n` separators yield `n + 1` chunks). -/
def splitBy (isSep : α → Bool) : List α → List (List α)
  | [] => [[]]
  | x :: xs =>
    let r := splitBy isSep xs
    if isSep x then [] :: r
    else
      match r with
      | [] => [[x]]
      | h :: t => (x :: h) :: t

/-- The lines of a string, as character lists. -/
def strLines (s : String) : List (List Char) :=
  splitBy (fun c => c = '\n') s.data

/-- Is `pat` a contiguous substring of `l`?  (Models JavaScript
`String.prototype.includes`.) -/
def containsSubList (pat : List Char) : List Char → Bool
  | [] => pat.isEmpty
  | c :: rest => pat.isPrefixOf (c :: rest) || containsSubList pat rest

/-- `s.includes(pat)` on strings. -/
def strContains (s pat : String) : Bool :=
  containsSubList pat.data s.data

/-- `p.isPrefixOf s` on strings (models `String.prototype.startsWith`). -/
def strStartsWith (s p : String) : Bool :=
  p.data.isPrefixOf s.data

/-- The format sniff of `processResourceManifest`: the input must mention
`apiVersion:` or `kind:` somewhere, otherwise redaction is skipped. -/
def yamlLooksLikeManifest (s : String) : Bool :=
  strContains s "apiVersion:" || strContains s "kind:"

/-- A line consisting only of blanks. -/
def isBlankLine (l : List Char) : Bool :=
  l.all (fun c => c = ' ' || c = '\t')

/-- A document separator line, exactly `---`. -/
def isSepLine (l : List Char) : Bool :=
  match l with
  | ['-', '-', '-'] => true
  | _ => false

/-- Split a YAML stream's lines into per-document segments: a `---` line
starts a new document, and content before the first `---` is a document of
its own unless it is entirely blank.  Two consecutive `---` lines therefore
enclose an (empty) document, as in the YAML spec. -/
def yamlDocSegments (lines : List (List Char)) : List (List (List Char)) :=
  match splitBy isSepLine lines with
  | [] => []
  | pre :: rest => (if pre.all isBlankLine then [] else [pre]) ++ rest

/-- Characters allowed in the keys of the modelled YAML fragment. -/
def plainKeyChar (c : Char) : Bool :=
  c.isAlphanum || c = '-' || c = '_' || c = '.'

/-- Scalar words the YAML 1.2 core schema would read as something other than
a string; the modelled fragment refuses them (and the printer quotes them),
so that parsing and printing stay inside plain string scalars. -/
def ambiguousScalarWords : List String :=
  ["null", "Null", "NULL", "true", "True", "TRUE", "false", "False", "FALSE"]

/-- A scalar that both the library and the model read back as the same plain
string: purely alphabetic and not a null/boolean word. -/
def plainSafeScalar (cs : List Char) : Bool :=
  !cs.isEmpty && cs.all Char.isAlpha && !(ambiguousScalarWords.contains (String.mk cs))

/-- Parse one `key: value` line of the modelled YAML fragment. -/
def parseScalarLine (l : List Char) : Option (String × Json) :=
  let sp := l.span plainKeyChar
  match sp.2 with
  | ':' :: ' ' :: vcs =>
    if sp.1.isEmpty || !(plainSafeScalar vcs) then none
    else some (String.mk sp.1, Json.str (String.mk vcs))
  | _ => none

/-- Do the fields carry pairwise distinct keys? -/
def noDupKeys : List (String × Json) → Bool
  | [] => true
  | (k, _) :: rest => !(rest.any (fun p => p.1 == k)) && noDupKeys rest

/-- Parse one document segment of the modelled YAML fragment: an entirely
blank segment is the empty document (`null`), otherwise every line must be a
`key: value` scalar line with distinct keys, giving a flat block map. -/
def parseSegment (seg : List (List Char)) : Option Json :=
  let content := seg.filter (fun l => !(isBlankLine l))
  if content.isEmpty then some Json.null
  else do
    let fields ← content.mapM parseScalarLine
    if noDupKeys fields then some (Json.obj fields) else none

/-- Model of `yaml.parseAllDocuments` on the verified fragment; `none` is a
parse failure (the real library collects errors per document — the code
skips such documents — or throws, which the code catches). -/
def yamlParseAllDocs (s : String) : Option (List Json) :=
  (yamlDocSegments (strLines s)).mapM parseSegment

/-- Escape a string for a double-quoted scalar / JSON string literal. -/
def escapeDq (s : String) : String :=
  String.join (s.data.map (fun c =>
    if c = '"' then "\\\""
    else if c = '\\' then "\\\\"
    else if c = '\n' then "\\n"
    else if c = '\t' then "\\t"
    else if c = '\r' then "\\r"
    else String.mk [c]))

/-- Left and right curly braces as characters. -/
def lbraceChar : Char := Char.ofNat 123

/-- Right curly brace. -/
def rbraceChar : Char := Char.ofNat 125

mutual

/-- Model of `JSON.stringify` (no spacing argument): compact output, object
fields in insertion order.  Numbers are the integers of the model. -/
def jsonStringify : Json → String
  | Json.null => "null"
  | Json.bool b => if b then "true" else "false"
  | Json.num n => toString n
  | Json.str s => "\"" ++ escapeDq s ++ "\""
  | Json.arr xs => "[" ++ jsonStringifyList xs ++ "]"
  | Json.obj fs => String.mk [lbraceChar] ++ jsonStringifyFields fs ++ String.mk [rbraceChar]

/-- Comma-separated serialization of array elements. -/
def jsonStringifyList : List Json → String
  | [] => ""
  | [x] => jsonStringify x
  | x :: xs => jsonStringify x ++ "," ++ jsonStringifyList xs

/-- Comma-separated serialization of object fields. -/
def jsonStringifyFields : List (String × Json) → String
  | [] => ""
  | [(k, v)] => "\"" ++ escapeDq k ++ "\":" ++ jsonStringify v
  | (k, v) :: fs => "\"" ++ escapeDq k ++ "\":" ++ jsonStringify v ++ "," ++ jsonStringifyFields fs

end

/-- Render one scalar value in the style `Document.toString` uses on the
verified fragment: plain when safe, double-quoted otherwise (the library's
default quote style is double quotes — the repository's own test expects
the placeholder to print as `"*****"`). -/
def renderScalarOut (s : String) : String :=
  if plainSafeScalar s.data then s else "\"" ++ escapeDq s ++ "\""

/-- Render the value of one map entry.  Nested containers fall back to a
compact flow rendering; they are outside the fragment the theorems exercise
(the library would use block style there). -/
def renderFieldVal : Json → String
  | Json.str s => renderScalarOut s
  | Json.num n => toString n
  | Json.bool b => if b then "true" else "false"
  | Json.null => "null"
  | v => jsonStringify v

/-- The body of `Document.toString` on the verified fragment: the empty
document prints as `null`, a flat map prints one `key: value` line per
field. -/
def renderYamlBody : Json → String
  | Json.null => "null\n"
  | Json.obj [] => String.mk [lbraceChar, rbraceChar] ++ "\n"
  | Json.obj fs => String.join (fs.map (fun kv => kv.1 ++ ": " ++ renderFieldVal kv.2 ++ "\n"))
  | j => renderFieldVal j ++ "\n"

/-- `doc.toString({ directives: true })`: with `directives: true` the
document-start marker `---` is always emitted before the body. -/
def docToStringDirectives (d : Json) : String :=
  "---\n" ++ renderYamlBody d

/-- String-level model of `processResourceManifest` (the YAML redactor).
The configuration is reduced to its only consulted field,
`config.security?.redactSecrets`.  Mirrors the source: empty input and
disabled redaction pass through; the format sniff passes non-manifests
through; a parse failure (the `catch`) passes through; otherwise every
document is processed and the stream is re-serialized by joining the
per-document `toString({ directives: true })` outputs with `\n---\n`. -/
def processResourceManifest (s : String) (redactSecrets : Bool) : String :=
  if s = "" then s
  else if !redactSecrets then s
  else if !(yamlLooksLikeManifest s) then s
  else
    match yamlParseAllDocs s with
    | none => s
    | some docs =>
      if docs.isEmpty then s
      else String.intercalate "\n---\n" (docs.map (fun d => docToStringDirectives (processDocV d)))

/-- Leading-whitespace trim used by the JSON format sniff. -/
def skipWs (cs : List Char) : List Char :=
  cs.dropWhile (fun c => c = ' ' || c = '\t' || c = '\n' || c = '\r')

/-- The format sniff of `processJsonResourceManifest`: the trimmed input
must start with a brace or a bracket. -/
def jsonSniff (s : String) : Bool :=
  match skipWs s.data with
  | c :: _ => c = lbraceChar || c = '['
  | [] => false

/-- Parse a decimal digit run into a natural number accumulator. -/
def parseDigits : Nat → List Char → Nat × List Char
  | acc, c :: rest =>
    if c.isDigit then parseDigits (acc * 10 + (c.toNat - 48)) rest else (acc, c :: rest)
  | acc, [] => (acc, [])

/-- Parse a JSON string literal body (after the opening quote).  The escapes
`\" \\ \/ \n \t \r \b \f` are supported; `\uXXXX` and raw control characters
are refused (`none`) — refusing only makes the modelled parser stricter,
which the surrounding code turns into a pass-through. -/
def parseStringLit : Nat → List Char → Option (String × List Char)
  | 0, _ => none
  | _, [] => none
  | fuel + 1, c :: rest =>
    if c = '"' then some ("", rest)
    else if c = '\\' then
      match rest with
      | e :: rest2 =>
        let ec : Option Char :=
          if e = '"' then some '"'
          else if e = '\\' then some '\\'
          else if e = '/' then some '/'
          else if e = 'n' then some '\n'
          else if e = 't' then some '\t'
          else if e = 'r' then some '\r'
          else if e = 'b' then some (Char.ofNat 8)
          else if e = 'f' then some (Char.ofNat 12)
          else none
        match ec with
        | some ch => do
          let (s, r) ← parseStringLit fuel rest2
          some (String.mk [ch] ++ s, r)
        | none => none
      | [] => none
    else if c.toNat < 32 then none
    else do
      let (s, r) ← parseStringLit fuel rest
      some (String.mk [c] ++ s, r)

mutual

/-- Fueled recursive-descent model of `JSON.parse` (value position).
Numbers are restricted to (optionally negated) integers; a fraction or
exponent makes the parse fail, again erring toward pass-through.  Duplicate
object keys are kept as parsed (no theorem exercises them). -/
def parseJsonVal : Nat → List Char → Option (Json × List Char)
  | 0, _ => none
  | fuel + 1, cs =>
    match skipWs cs with
    | [] => none
    | c :: rest =>
      if c = '"' then do
        let (s, r) ← parseStringLit (fuel + 1) rest
        some (Json.str s, r)
      else if c = 'n' then
        match c :: rest with
        | 'n' :: 'u' :: 'l' :: 'l' :: r => some (Json.null, r)
        | _ => none
      else if c = 't' then
        match c :: rest with
        | 't' :: 'r' :: 'u' :: 'e' :: r => some (Json.bool true, r)
        | _ => none
      else if c = 'f' then
        match c :: rest with
        | 'f' :: 'a' :: 'l' :: 's' :: 'e' :: r => some (Json.bool false, r)
        | _ => none
      else if c = '-' then
        match rest with
        | d :: _ =>
          if d.isDigit then
            let (n, r) := parseDigits 0 rest
            match r with
            | e :: _ => if e = '.' || e = 'e' || e = 'E' then none else some (Json.num (-(n : Int)), r)
            | [] => some (Json.num (-(n : Int)), [])
          else none
        | [] => none
      else if c.isDigit then
        let (n, r) := parseDigits 0 (c :: rest)
        match r with
        | e :: _ => if e = '.' || e = 'e' || e = 'E' then none else some (Json.num (n : Int), r)
        | [] => some (Json.num (n : Int), [])
      else if c = '[' then
        match skipWs rest with
        | ']' :: r => some (Json.arr [], r)
        | _ => do
          let (xs, r) ← parseJsonArrItems fuel rest
          some (Json.arr xs, r)
      else if c = lbraceChar then
        match skipWs rest with
        | b :: r =>
          if b = rbraceChar then some (Json.obj [], r)
          else do
            let (fs, r2) ← parseJsonObjFields fuel rest
            some (Json.obj fs, r2)
        | [] => none
      else none

/-- Array elements: value, then `,` and more elements or `]`. -/
def parseJsonArrItems : Nat → List Char → Option (List Json × List Char)
  | 0, _ => none
  | fuel + 1, cs => do
    let (v, r) ← parseJsonVal fuel cs
    match skipWs r with
    | ',' :: r2 => do
      let (xs, r3) ← parseJsonArrItems fuel r2
      some (v :: xs, r3)
    | ']' :: r2 => some ([v], r2)
    | _ => none

/-- Object fields: `"key": value`, then `,` and more fields or the closing
brace. -/
def parseJsonObjFields : Nat → List Char → Option (List (String × Json) × List Char)
  | 0, _ => none
  | fuel + 1, cs =>
    match skipWs cs with
    | '"' :: r => do
      let (k, r2) ← parseStringLit (fuel + 1) r
      match skipWs r2 with
      | ':' :: r3 => do
        let (v, r4) ← parseJsonVal fuel r3
        match skipWs r4 with
        | ',' :: r5 => do
          let (fs, r6) ← parseJsonObjFields fuel r5
          some ((k, v) :: fs, r6)
        | b :: r5 =>
          if b = rbraceChar then some ([(k, v)], r5) else none
        | [] => none
      | _ => none
    | _ => none

end

/-- Model of `JSON.parse`: parse one value and require only trailing
whitespace after it.  The fuel bound is generous: every unit of fuel spent
corresponds to at least one consumed input character. -/
def jsonParse (s : String) : Option Json := do
  let (v, r) ← parseJsonVal (s.data.length * 2 + 2) s.data
  if (skipWs r).isEmpty then some v else none

/-- String-level model of `processJsonResourceManifest` (the JSON redactor),
with the configuration reduced to `config.security?.redactSecrets`.  A parse
failure or a `TypeError` thrown while redacting (`redactJsonValueE` being
`none`) lands in the same `catch`, which returns the input unchanged. -/
def processJsonResourceManifest (s : String) (redactSecrets : Bool) : String :=
  if s = "" then s
  else if !redactSecrets then s
  else if !(jsonSniff s) then s
  else
    match jsonParse s with
    | none => s
    | some v =>
      match redactJsonValueE v with
      | some w => jsonStringify w
      | none => s

/-! ## Scope resolution

`mergeConfigs` (config loader) merges defaults, the file config and the CLI
config.  Its generic `deepMerge` overwrites array values wholesale whenever
the higher-priority source supplies one; on top of that the filter arrays
get special handling: CLI include-lists replace, CLI exclude-lists union
(via a JavaScript `Set`, so first-occurrence order with duplicates removed).
Only the namespace-related filter fields are modelled; `undefined` fields
are `none`. -/

/-- The default `filter.excludeNamespaces` from `configSchema.ts`. -/
def defaultExcludeNamespaces : List String :=
  ["kube-system", "kube-public", "kube-node-lease"]

/-- The namespace-related part of a `filter` config section; `none` models
an absent (`undefined`) field. -/
structure NsFilterConfig where
  namespaces : Option (List String)
  excludeNamespaces : Option (List String)

/-- Deduplication keeping first occurrences — `Array.from(new Set(xs))`. -/
def dedupKeepFirstAux (seen : List String) : List String → List String
  | [] => []
  | x :: xs =>
    if seen.contains x then dedupKeepFirstAux seen xs
    else x :: dedupKeepFirstAux (x :: seen) xs

/-- `Array.from(new Set(xs))`. -/
def dedupKeepFirst (xs : List String) : List String :=
  dedupKeepFirstAux [] xs

/-- The namespace-filter part of `mergeConfigs`: `deepMerge` lets a file
config array overwrite the default array whenever present (even when
empty); then the CLI include-list replaces when non-empty and the CLI
exclude-list unions in when non-empty. -/
def mergeNsFilterConfigs (fileF cliF : NsFilterConfig) : NsFilterConfig :=
  let mergedNs : Option (List String) := fileF.namespaces
  let mergedEx : List String := fileF.excludeNamespaces.getD defaultExcludeNamespaces
  let finalNs : Option (List String) :=
    match cliF.namespaces with
    | some l => if l.isEmpty then mergedNs else some l
    | none => mergedNs
  let finalEx : List String :=
    match cliF.excludeNamespaces with
    | some l => if l.isEmpty then mergedEx else dedupKeepFirst (mergedEx ++ l)
    | none => mergedEx
  { namespaces := finalNs, excludeNamespaces := some finalEx }

/-- `getNamespacesToQuery` from `resourceFilter.ts`: start from the include
list when non-empty, else all available namespaces; then drop every name in
the exclude list (exact, case-sensitive `Set` membership). -/
def getNamespacesToQuery (filter : NsFilterConfig) (availableNamespaces : List String) :
    List String :=
  let base : List String :=
    match filter.namespaces with
    | some l => if l.isEmpty then availableNamespaces else l
    | none => availableNamespaces
  match filter.excludeNamespaces with
  | some ex => if ex.isEmpty then base else base.filter (fun ns => !(ex.contains ns))
  | none => base

/-- End-to-end namespace scope resolution: merge the configs, then apply
`getNamespacesToQuery` to the discovered namespaces. -/
def resolveNamespaces (fileF cliF : NsFilterConfig) (availableNamespaces : List String) :
    List String :=
  getNamespacesToQuery (mergeNsFilterConfigs fileF cliF) availableNamespaces

/-! ## Pod health heuristic (`isPodFailing`) -/

/-- Association-list lookup with a default (`m[k] || d`). -/
def lookupAssoc (m : List (String × β)) (k : String) (d : β) : β :=
  match m with
  | [] => d
  | (k2, v) :: rest => if k2 = k then v else lookupAssoc rest k d

/-- The fixed preferred display order of resource kinds. -/
def resourceKindDisplayOrder : List String :=
  ["configmaps", "deployments", "pods", "secrets", "services"]

/-- The kind comparator of `generateResourceTreeString` as a total
preorder: kinds in the display order come first, in that order; the rest
sort lexicographically. -/
def kindLeB (a b : String) : Bool :=
  match resourceKindDisplayOrder.indexOf? a, resourceKindDisplayOrder.indexOf? b with
  | some i, some j => i ≤ j
  | some _, none => true
  | none, some _ => false
  | none, none => a ≤ b

/-- The lines contributed by one namespace: the namespace header, then for
each kind with resources a `  kind:` line and the sorted `    name` lines.
A namespace with no non-empty kinds contributes only its bare header (the
`# none` branch of the source is unreachable: kinds are pre-filtered to
non-empty ones, and the model keeps the branch for faithfulness). -/
def renderNamespaceSection (resourcesByNamespace : List (String × List (String × List String)))
    (ns : String) : List String :=
  if ((((lookupAssoc resourcesByNamespace ns []).filter
        (fun kv => !kv.2.isEmpty)).map Prod.fst).isEmpty) then [ns]
  else
    ns :: (List.insertionSort (fun a b => kindLeB a b = true)
        (((lookupAssoc resourcesByNamespace ns []).filter
          (fun kv => !kv.2.isEmpty)).map Prod.fst)).flatMap
      (fun kind =>
        if !(lookupAssoc (lookupAssoc resourcesByNamespace ns []) kind []).isEmpty then
          ("  " ++ kind ++ ":") ::
            (List.insertionSort (fun a b : String => a ≤ b)
              (lookupAssoc (lookupAssoc resourcesByNamespace ns []) kind [])).map
              (fun r => "    " ++ r)
        else ["  " ++ kind ++ ":  # none"])

/-- The `treeLines` accumulated by the main loop of
`generateResourceTreeString`: sorted namespaces, each contributing its
section. -/
def buildTreeLines (namespaces : List String)
    (resourcesByNamespace : List (String × List (String × List String))) : List String :=
  (List.insertionSort (fun a b : String => a ≤ b) namespaces).flatMap
    (renderNamespaceSection resourcesByNamespace)

/-- `generateResourceTreeString`: empty namespace list gives a placeholder;
no resource map gives the sorted namespace list; otherwise the joined tree
lines. -/
def generateResourceTreeString (namespaces : List String)
    (resourcesByNamespace : Option (List (String × List (String × List String)))) : String :=
  if namespaces.isEmpty then "(No namespaces found or retrieved)"
  else
    match resourcesByNamespace with
    | none => String.intercalate "\n" (List.insertionSort (fun a b : String => a ≤ b) namespaces)
    | some m => String.intercalate "\n" (buildTreeLines namespaces m)

/-! ## Per-namespace aggregation fan-out (`aggregateResources`)

The `Promise.all` fan-out issues one task per resolved namespace.  Each
task's external calls are modelled by an oracle: the outcome of
`getResourcesByName` and, when reached, of `getResourcesOutput` for that
namespace (`Except.error` models a thrown exception).  A task's effects are
the final value stored under its namespace key, its contribution to the
resource counts, its fetched output block (after in-task redaction) and
whether it logged an error.  Tasks write disjoint keys, so the sequential
fold below computes the same map and block multiset the concurrent code
accumulates (block order in the real code depends on completion order;
only membership is claimed). -/

/-- Outcomes of the two external calls a namespace task can make. -/
structure NsOracle where
  names : Except String (List (String × List String))
  outData : Except String (String × String)

/-- One fetched output block (`fetchedOutputBlocks` entry). -/
structure FetchedBlock where
  namespaceName : String
  command : String
  output : String

/-- The observable effects of one namespace task. -/
structure TaskEffects where
  stored : List (String × List String)
  counts : List (String × Nat)
  block : Option FetchedBlock
  loggedError : Bool

/-- `Object.values(resourcesByKind).some(r => r.length > 0)`. -/
def hasAnyResources (rk : List (String × List String)) : Bool :=
  rk.any (fun kv => !kv.2.isEmpty)

/-- ASCII lowercasing (`String.prototype.toLowerCase` on the command
strings involved). -/
def toLowerStr (s : String) : String :=
  String.mk (s.data.map Char.toLower)

/-- Trim leading and trailing whitespace. -/
def strTrim (s : String) : String :=
  String.mk ((skipWs ((skipWs s.data).reverse)).reverse)

/-- Format detection from the command string: explicit `-o yaml`/`-o json`
style flags override the configured format. -/
def detectFormat (configFormat : String) (cmd : String) : String :=
  let c := toLowerStr cmd
  if strContains c " -o yaml" || strContains c " --output=yaml" || strContains c " --output yaml"
  then "yaml"
  else if strContains c " -o json" || strContains c " --output=json" || strContains c " --output json"
  then "json"
  else configFormat

/-- The extra content inspection: output that looks like YAML forces YAML
processing. -/
def yamlContentHint (out : String) : Bool :=
  strStartsWith (strTrim out) "apiVersion:" || strContains out "\napiVersion:"

/-- The in-task redaction step applied to one namespace's fetched output:
when redaction is enabled, detect the format and run the matching redactor;
a `text` format (or any other) is passed through. -/
def redactForTask (configFormat : String) (redactSecrets : Bool) (cmd out : String) : String :=
  if redactSecrets then
    let fmt0 := detectFormat configFormat cmd
    let fmt := if yamlContentHint out then "yaml" else fmt0
    if fmt = "yaml" then processResourceManifest out redactSecrets
    else if fmt = "json" then processJsonResourceManifest out redactSecrets
    else out
  else out

/-- One namespace task of the `Promise.all` fan-out, with its `try`/`catch`.
A throw of the name listing is caught before anything is recorded; a throw
of the data fetch is caught after the counts were added, and the `catch`
overwrites the stored map with `{}`; an empty (but successful) output
produces no block. -/
def runNsTask (configFormat : String) (redactSecrets : Bool) (o : NsOracle) (ns : String) :
    TaskEffects :=
  match o.names with
  | Except.error _ => ⟨[], [], none, true⟩
  | Except.ok rk =>
    let counts := rk.map (fun kv => (kv.1, kv.2.length))
    if hasAnyResources rk then
      match o.outData with
      | Except.error _ => ⟨[], counts, none, true⟩
      | Except.ok cmdout =>
        if cmdout.2 = "" then ⟨rk, counts, none, false⟩
        else
          ⟨rk, counts,
            some ⟨ns, cmdout.1, redactForTask configFormat redactSecrets cmdout.1 cmdout.2⟩,
            false⟩
    else ⟨rk, counts, none, false⟩

/-- Does the namespace task hit an exception (either external call
throwing at a point where it is actually made)? -/
def nsFetchThrows (o : NsOracle) : Bool :=
  match o.names with
  | Except.error _ => true
  | Except.ok rk =>
    hasAnyResources rk &&
      (match o.outData with
        | Except.error _ => true
        | Except.ok _ => false)

/-- The per-namespace map `resourcesByNamespace` after all tasks finish. -/
def aggregateStored (configFormat : String) (redactSecrets : Bool)
    (oracle : String → NsOracle) (namespaces : List String) :
    List (String × List (String × List String)) :=
  namespaces.map (fun ns => (ns, (runNsTask configFormat redactSecrets (oracle ns) ns).stored))

/-- The `fetchedOutputBlocks` list after all tasks finish (in task order;
the concurrent code's order depends on completion order, membership does
not). -/
def aggregateBlocks (configFormat : String) (redactSecrets : Bool)
    (oracle : String → NsOracle) (namespaces : List String) : List FetchedBlock :=
  namespaces.filterMap (fun ns => (runNsTask configFormat redactSecrets (oracle ns) ns).block)

/-! ## Metrics assembly -/

/-- The metrics record returned by `aggregateResources`. -/
structure AggregationResult where
  namespaceCount : Nat
  resourceCounts : List (String × Nat)
  totalResourceCount : Nat
  totalCharacters : Nat
  totalTokens : Nat
  secretsFound : Bool

/-- The metrics assembly at the end of `aggregateResources`.  `secretsFound`
is literally `config.security?.redactSecrets === true` (the source comments
that this is a simplification and does not track whether secrets were
actually found). -/
def computeMetrics (redactSecrets : Option Bool) (namespaceNames : List String)
    (totalResourceCounts : List (String × Nat)) (totalCharacters totalTokens : Nat) :
    AggregationResult :=
  { namespaceCount := namespaceNames.length
    resourceCounts := totalResourceCounts
    totalResourceCount := (totalResourceCounts.map Prod.snd).sum
    totalCharacters := totalCharacters
    totalTokens := totalTokens
    secretsFound := redactSecrets == some true }

/-! ## Specification-side helpers and concrete fixtures

The definitions below are not translations of source code: they are the
vocabulary in which the claims are stated (accessors spelling out what
"declared phase" or "namespace header" mean) and concrete example values
used by counterexamples and witnesses. -/

/-- Does a tree line start with a blank?  Namespace headers are the only
unindented tree lines, provided namespace names do not start with a
blank. -/
def lineStartsWithBlank (l : String) : Bool :=
  match l.data with
  | c :: _ => c = ' '
  | [] => false

/-- The include-list precedence of the spec: the CLI include-list when
non-empty, else the file include-list when non-empty, else the discovered
namespaces. -/
def scopeBase (fileF cliF : NsFilterConfig) (availableNamespaces : List String) : List String :=
  match cliF.namespaces with
  | some l =>
    if l.isEmpty then
      match fileF.namespaces with
      | some m => if m.isEmpty then availableNamespaces else m
      | none => availableNamespaces
    else l
  | none =>
    match fileF.namespaces with
    | some m => if m.isEmpty then availableNamespaces else m
    | none => availableNamespaces

/-- Fixture: the fields of a Secret document carrying both a `data` and a
`stringData` mapping. -/
def c1ExampleFields : List (String × Json) :=
  [("kind", Json.str "Secret"),
   ("data", Json.obj [("a", Json.str "x1"), ("b", Json.str "y2")]),
   ("stringData", Json.obj [("c", Json.str "z3")])]

/-- Fixture: a Secret item with one data entry. -/
def c3SecretItem : Json :=
  Json.obj [("kind", Json.str "Secret"), ("data", Json.obj [("a", Json.str "x1")])]

/-- Fixture: the same Secret with its data value masked. -/
def c3SecretItemMasked : Json :=
  Json.obj [("kind", Json.str "Secret"), ("data", Json.obj [("a", Json.str "*****")])]

/-- Fixture: a non-sensitive Service item. -/
def c3ServiceItem : Json :=
  Json.obj [("kind", Json.str "Service"), ("metadata", Json.obj [("name", Json.str "svc")])]

/-- Fixture: the fields of a list document holding one sensitive and one
non-sensitive item. -/
def c3MixedListFields : List (String × Json) :=
  [("kind", Json.str "List"), ("items", Json.arr [c3SecretItem, c3ServiceItem])]

/-- Fixture: a list document whose single item is itself a list holding a
Secret — the nested-sensitivity case. -/
def c3NestedListDoc : Json :=
  Json.obj [("kind", Json.str "List"),
            ("items", Json.arr [Json.obj [("kind", Json.str "List"),
                                          ("items", Json.arr [c3SecretItem])]])]

/-- Fixture: the multi-document YAML input for the document-count and
idempotence analyses. -/
def c2FailingInput : String := "kind: A\n---\nkind: B"

/-- The first element of a document's `items` array (`null` when there is
none) — used to walk into nested list documents. -/
def firstItem (j : Json) : Json :=
  match jGet j "items" with
  | Json.arr (x :: _) => x
  | _ => Json.null

/-- Fixture oracle for the fan-out: the namespace `bad` throws on both
external calls, every other namespace succeeds with one pod and non-empty
output. -/
def c9Oracle : String → NsOracle := fun ns =>
  if ns = "bad" then ⟨Except.error "boom", Except.error "boom"⟩
  else ⟨Except.ok [("pods", ["p1"])], Except.ok ("kubectl get pods -n x -o yaml", "out")⟩

/-! ## Helper lemmas -/

theorem processFieldV_null (b1 b2 : Bool) (k : String) :
    processFieldV b1 b2 k Json.null = Json.null := by
  simp only [processFieldV]
  split_ifs <;> rfl

theorem lookupJ_processFieldsV (b1 b2 : Bool) (k : String) (fs : List (String × Json)) :
    lookupJ (processFieldsV b1 b2 fs) k = processFieldV b1 b2 k (lookupJ fs k) := by
  induction fs with
  | nil => simp [processFieldsV, lookupJ, processFieldV_null]
  | cons hd tl ih =>
    obtain ⟨k2, v⟩ := hd
    simp only [processFieldsV, lookupJ]
    by_cases h : k2 = k
    · subst h
      simp
    · simp [h, ih]

theorem lookupJ_ne_null_any (fs : List (String × Json)) (k : String)
    (h : lookupJ fs k ≠ Json.null) : fs.any (fun kv => kv.1 == k) = true := by
  induction fs with
  | nil => simp [lookupJ] at h
  | cons hd tl ih =>
    obtain ⟨k2, v⟩ := hd
    by_cases hk : k2 = k
    · simp [hk]
    · simp only [lookupJ, hk, if_false] at h
      simp [hk, ih h]

theorem lookupJ_map_val (g : String → Json → Json) (k : String) (fs : List (String × Json)) :
    lookupJ (fs.map (fun kv => (kv.1, g kv.1 kv.2))) k
      = if fs.any (fun kv => kv.1 == k) then g k (lookupJ fs k) else Json.null := by
  induction fs with
  | nil => simp [lookupJ]
  | cons hd tl ih =>
    obtain ⟨k2, v⟩ := hd
    by_cases hk : k2 = k
    · subst hk
      simp [lookupJ]
    · have hk2 : (k2 == k) = false := by simp [hk]
      simp [lookupJ, hk, ih]
      rw [hk2, Bool.false_or]

theorem processItemsV_eq_map (xs : List Json) :
    processItemsV xs
      = xs.map (fun x => match x with | Json.obj _ => processDocV x | _ => x) := by
  induction xs with
  | nil => rfl
  | cons hd tl ih => simp [processItemsV, ih]

theorem isSecretKind_of (fs : List (String × Json)) (h : lookupJ fs "kind" = Json.str "Secret") :
    isSecretKind fs = true := by
  simp [isSecretKind, h]

theorem mem_dedupKeepFirstAux (a : String) (xs : List String) :
    ∀ seen, a ∈ dedupKeepFirstAux seen xs ↔ (a ∈ xs ∧ ¬ a ∈ seen) := by
  induction xs with
  | nil => intro seen; simp [dedupKeepFirstAux]
  | cons x t ih =>
    intro seen
    by_cases hx : x ∈ seen
    · have hc : seen.contains x = true := by simpa [List.elem_iff] using hx
      simp only [dedupKeepFirstAux, hc, if_true, ih]
      constructor
      · rintro ⟨h1, h2⟩
        exact ⟨List.mem_cons_of_mem _ h1, h2⟩
      · rintro ⟨h1, h2⟩
        rcases List.mem_cons.mp h1 with rfl | h1
        · exact absurd hx h2
        · exact ⟨h1, h2⟩
    · have hc : seen.contains x = false := by
        simp [List.elem_iff]
        exact hx
      simp only [dedupKeepFirstAux, hc, Bool.false_eq_true, if_false, List.mem_cons, ih,
        List.mem_cons]
      constructor
      · rintro (rfl | ⟨h1, h2⟩)
        · exact ⟨Or.inl rfl, hx⟩
        · refine ⟨Or.inr h1, ?_⟩
          intro hs
          exact h2 (Or.inr hs)
      · rintro ⟨rfl | h1, h2⟩
        · exact Or.inl rfl
        · by_cases hax : a = x
          · exact Or.inl hax
          · refine Or.inr ⟨h1, ?_⟩
            intro hs
            rcases hs with rfl | hs
            · exact hax rfl
            · exact h2 hs

theorem mem_dedupKeepFirst (a : String) (xs : List String) :
    a ∈ dedupKeepFirst xs ↔ a ∈ xs := by
  simp [dedupKeepFirst, mem_dedupKeepFirstAux]

theorem mem_excl_filter (base ex : List String) (ns : String) :
    ns ∈ (if ex.isEmpty then base else base.filter (fun x => !(ex.contains x)))
      ↔ (ns ∈ base ∧ ¬ ns ∈ ex) := by
  cases ex with
  | nil => simp
  | cons e t =>
    simp [List.mem_filter, List.elem_iff]

theorem mem_getNamespacesToQuery (f : NsFilterConfig) (avail : List String) (ns : String) :
    ns ∈ getNamespacesToQuery f avail ↔
      (ns ∈ (match f.namespaces with
             | some l => if l.isEmpty then avail else l
             | none => avail)
        ∧ ¬ ns ∈ f.excludeNamespaces.getD []) := by
  rcases f with ⟨fns, fex⟩
  unfold getNamespacesToQuery
  cases fex with
  | none => simp
  | some ex => simpa using mem_excl_filter _ ex ns

theorem lineStartsWithBlank_indent2 (s t : String) :
    lineStartsWithBlank ("  " ++ s ++ t) = true := rfl

theorem lineStartsWithBlank_indent4 (s : String) :
    lineStartsWithBlank ("    " ++ s) = true := rfl

theorem renderNamespaceSection_tail (m : List (String × List (String × List String)))
    (ns : String) :
    ∃ tail, renderNamespaceSection m ns = ns :: tail
      ∧ ∀ l ∈ tail, lineStartsWithBlank l = true := by
  unfold renderNamespaceSection
  split
  · exact ⟨[], rfl, by simp⟩
  · refine ⟨_, rfl, ?_⟩
    intro l hl
    rw [List.mem_flatMap] at hl
    obtain ⟨kind, _, hl⟩ := hl
    revert hl
    split
    · intro hl
      rcases List.mem_cons.mp hl with rfl | hl
      · exact lineStartsWithBlank_indent2 kind ":"
      · rw [List.mem_map] at hl
        obtain ⟨r, _, rfl⟩ := hl
        exact lineStartsWithBlank_indent4 r
    · intro hl
      rcases List.mem_cons.mp hl with rfl | hl
      · exact lineStartsWithBlank_indent2 kind ":  # none"
      · simp at hl

theorem headers_of_flatMap (m : List (String × List (String × List String)))
    (l : List String) (h : ∀ ns ∈ l, lineStartsWithBlank ns = false) :
    (l.flatMap (renderNamespaceSection m)).filter (fun x => !(lineStartsWithBlank x)) = l := by
  induction l with
  | nil => rfl
  | cons ns t ih =>
    obtain ⟨tail, hsec, htail⟩ := renderNamespaceSection_tail m ns
    have hns : (!(lineStartsWithBlank ns)) = true := by
      rw [h ns (List.mem_cons_self ns t)]
      rfl
    have htailnil : tail.filter (fun x => !(lineStartsWithBlank x)) = [] := by
      rw [List.filter_eq_nil_iff]
      intro a ha
      rw [htail a ha]
      simp
    rw [List.flatMap_cons, List.filter_append, hsec]
    simp [List.filter_cons, hns, htailnil, ih (fun x hx => h x (List.mem_cons_of_mem ns hx))]

theorem runNsTask_throws (configFormat : String) (redactSecrets : Bool) (o : NsOracle)
    (ns : String) (h : nsFetchThrows o = true) :
    (runNsTask configFormat redactSecrets o ns).stored = []
    ∧ (runNsTask configFormat redactSecrets o ns).block = none
    ∧ (runNsTask configFormat redactSecrets o ns).loggedError = true := by
  rcases o with ⟨names, outData⟩
  cases names with
  | error e => exact ⟨rfl, rfl, rfl⟩
  | ok rk =>
    cases outData with
    | ok cmdout => simp [nsFetchThrows] at h
    | error e =>
      have hha : hasAnyResources rk = true := by
        simpa [nsFetchThrows] using h
      simp [runNsTask, hha]

/-! ## Claim theorems -/

/-- Claim C1, counterexample.  The claim states that redaction replaces
every value under a sensitive document's `data` mapping *and under a
`stringData` mapping if present*.  The JSON redactor
(`processJsonResourceManifest`) masks only `data`: on a Secret carrying
`data: \x7ba: "x1"\x7d` and `stringData: \x7bb: "y2"\x7d` it leaves the
`stringData` value `y2` in the clear, so the output differs from what the
claim requires. -/
theorem C1_counterexample :
    processJsonResourceManifest
        "\x7b\"kind\":\"Secret\",\"data\":\x7b\"a\":\"x1\"\x7d,\"stringData\":\x7b\"b\":\"y2\"\x7d\x7d"
        true
      = "\x7b\"kind\":\"Secret\",\"data\":\x7b\"a\":\"*****\"\x7d,\"stringData\":\x7b\"b\":\"y2\"\x7d\x7d"
    ∧ processJsonResourceManifest
        "\x7b\"kind\":\"Secret\",\"data\":\x7b\"a\":\"x1\"\x7d,\"stringData\":\x7b\"b\":\"y2\"\x7d\x7d"
        true
      ≠ "\x7b\"kind\":\"Secret\",\"data\":\x7b\"a\":\"*****\"\x7d,\"stringData\":\x7b\"b\":\"*****\"\x7d\x7d" := by
  exact ⟨rfl, by decide⟩

/-- Claim C1, amended.  For every parsed document with `kind: Secret` and a
`data` mapping: the YAML redaction (`processDocument`/`redactSecretData`)
replaces every value under `data` and under a `stringData` mapping with the
placeholder, keys unchanged; the JSON redaction replaces every value under
`data` only, and leaves a `stringData` mapping untouched. -/
theorem C1_amended (fs d sd : List (String × Json))
    (hk : lookupJ fs "kind" = Json.str "Secret")
    (hd : lookupJ fs "data" = Json.obj d)
    (hs : lookupJ fs "stringData" = Json.obj sd) :
    jGet (processDocV (Json.obj fs)) "data"
        = Json.obj (d.map (fun kv => (kv.1, Json.str "*****")))
    ∧ jGet (processDocV (Json.obj fs)) "stringData"
        = Json.obj (sd.map (fun kv => (kv.1, Json.str "*****")))
    ∧ jGet (redactJsonItem (Json.obj fs)) "data"
        = Json.obj (d.map (fun kv => (kv.1, Json.str "*****")))
    ∧ jGet (redactJsonItem (Json.obj fs)) "stringData" = Json.obj sd := by
  have hsk : isSecretKind fs = true := isSecretKind_of fs hk
  have htr : jtruthy (lookupJ fs "data") = true := by rw [hd]; rfl
  have hobj : isObjJ (lookupJ fs "data") = true := by rw [hd]; rfl
  have hanyd : fs.any (fun kv => kv.1 == "data") = true :=
    lookupJ_ne_null_any fs "data" (by rw [hd]; simp)
  have hanys : fs.any (fun kv => kv.1 == "stringData") = true :=
    lookupJ_ne_null_any fs "stringData" (by rw [hs]; simp)
  refine ⟨?_, ?_, ?_, ?_⟩
  · simp only [processDocV, hsk, htr, hobj, Bool.and_self, jGet]
    rw [lookupJ_processFieldsV, hd]
    simp [processFieldV, maskObjValues, SECRET_REDACTION_PLACEHOLDER]
  · simp only [processDocV, hsk, htr, hobj, Bool.and_self, jGet]
    rw [lookupJ_processFieldsV, hs]
    simp [processFieldV, maskObjValues, SECRET_REDACTION_PLACEHOLDER]
  · simp only [redactJsonItem, hsk, htr, Bool.and_self, if_true, jGet]
    rw [lookupJ_map_val (fun k v => if k = "data" then maskDataJs v else v) "data" fs,
      hanyd, if_pos rfl, hd]
    simp [maskDataJs, SECRET_REDACTION_PLACEHOLDER]
  · simp only [redactJsonItem, hsk, htr, Bool.and_self, if_true, jGet]
    rw [lookupJ_map_val (fun k v => if k = "data" then maskDataJs v else v) "stringData" fs,
      hanys, if_pos rfl, hs]
    simp

/-- Witness for C1: the Secret fixture with `data: \x7ba: x1, b: y2\x7d` and
`stringData: \x7bc: z3\x7d`, with the hypotheses discharged by `rfl`. -/
theorem C1_witness :
    lookupJ c1ExampleFields "kind" = Json.str "Secret"
    ∧ lookupJ c1ExampleFields "data" = Json.obj [("a", Json.str "x1"), ("b", Json.str "y2")]
    ∧ lookupJ c1ExampleFields "stringData" = Json.obj [("c", Json.str "z3")]
    ∧ (jGet (processDocV (Json.obj c1ExampleFields)) "data"
          = Json.obj ([("a", Json.str "x1"), ("b", Json.str "y2")].map
              (fun kv => (kv.1, Json.str "*****")))
        ∧ jGet (processDocV (Json.obj c1ExampleFields)) "stringData"
          = Json.obj ([("c", Json.str "z3")].map (fun kv => (kv.1, Json.str "*****")))
        ∧ jGet (redactJsonItem (Json.obj c1ExampleFields)) "data"
          = Json.obj ([("a", Json.str "x1"), ("b", Json.str "y2")].map
              (fun kv => (kv.1, Json.str "*****")))
        ∧ jGet (redactJsonItem (Json.obj c1ExampleFields)) "stringData"
          = Json.obj [("c", Json.str "z3")]) :=
  ⟨rfl, rfl, rfl,
    C1_amended c1ExampleFields [("a", Json.str "x1"), ("b", Json.str "y2")]
      [("c", Json.str "z3")] rfl rfl rfl⟩

/-- Claim C2, violated by the code.  The input `kind: A\n---\nkind: B`
parses as two documents, but the redacted output — each document serialized
with a forced leading `---` marker and then joined with another `\n---\n`
separator — re-parses as three documents (an empty document appears between
the doubled separators), so redaction does not preserve the document
count. -/
theorem C2_bug :
    (yamlParseAllDocs c2FailingInput).map List.length = some 2
    ∧ processResourceManifest c2FailingInput true
        = "---\nkind: A\n\n---\n---\nkind: B\n"
    ∧ (yamlParseAllDocs (processResourceManifest c2FailingInput true)).map List.length
        = some 3 := by
  exact ⟨rfl, rfl, rfl⟩

/-- Claim C5, violated by the code.  Because re-serialization doubles the
document separators, redacting the already-redacted two-document stream
inserts a serialized empty (`null`) document between them and yields a
different string: redaction is not idempotent. -/
theorem C5_bug :
    processResourceManifest (processResourceManifest c2FailingInput true) true
      ≠ processResourceManifest c2FailingInput true := by
  decide

/-- Claim C3, counterexample.  The claim says redaction recurses into each
item of a list container with the same sensitivity rule.  The JSON redactor
(`redactJsonValueE`) inspects only the top-level `items` entries: on a list
whose item is itself a list containing a Secret, it changes nothing, and
the nested Secret's data value `x1` survives — while the YAML redactor
(`processDocV`), which does recurse, masks it. -/
theorem C3_counterexample :
    redactJsonValueE c3NestedListDoc = some c3NestedListDoc
    ∧ jGet (jGet (firstItem (firstItem ((redactJsonValueE c3NestedListDoc).getD Json.null)))
          "data") "a"
        = Json.str "x1"
    ∧ jGet (jGet (firstItem (firstItem (processDocV c3NestedListDoc))) "data") "a"
        = Json.str "*****" := by
  exact ⟨rfl, rfl, rfl⟩

/-- Claim C3, amended.  The YAML redaction recurses into every `items`
entry (processing map items with the same rule, splicing results in place —
nothing throws on this path); the JSON redaction processes only the
top-level `items` array, applying the Secret rule directly to each item
with no deeper recursion, and an item that makes the strict-mode code throw
(a null entry, or a Secret whose truthy `data` is a string) aborts the
whole JSON redaction, whose `catch` then returns the input string
unchanged.  On a list document with one sensitive and one non-sensitive
item, both redactors mask only the sensitive item's data values. -/
theorem C3_amended :
    (∀ (fs : List (String × Json)) (xs : List Json),
        lookupJ fs "items" = Json.arr xs →
        jGet (processDocV (Json.obj fs)) "items"
          = Json.arr (xs.map (fun x => match x with | Json.obj _ => processDocV x | _ => x)))
    ∧ (∀ (fs : List (String × Json)) (xs ys : List Json),
        lookupJ fs "items" = Json.arr xs →
        xs.mapM redactJsonItemE = some ys →
        ∃ w, redactJsonValueE (Json.obj fs) = some w ∧ jGet w "items" = Json.arr ys)
    ∧ (∀ (s : String) (v : Json),
        jsonParse s = some v → redactJsonValueE v = none →
        processJsonResourceManifest s true = s)
    ∧ processDocV (Json.obj c3MixedListFields)
        = Json.obj [("kind", Json.str "List"),
                    ("items", Json.arr [c3SecretItemMasked, c3ServiceItem])]
    ∧ redactJsonValueE (Json.obj c3MixedListFields)
        = some (Json.obj [("kind", Json.str "List"),
                          ("items", Json.arr [c3SecretItemMasked, c3ServiceItem])]) := by
  refine ⟨?_, ?_, ?_, rfl, rfl⟩
  · intro fs xs h
    simp only [processDocV, jGet]
    rw [lookupJ_processFieldsV, h]
    simp [processFieldV, processItemsV_eq_map]
  · intro fs xs ys h hmap
    have hany : fs.any (fun kv => kv.1 == "items") = true :=
      lookupJ_ne_null_any fs "items" (by rw [h]; simp)
    refine ⟨Json.obj (fs.map (fun kv => (kv.1, if kv.1 = "items" then Json.arr ys else kv.2))),
      ?_, ?_⟩
    · simp only [redactJsonValueE, h, hmap]
    · simp only [jGet]
      rw [lookupJ_map_val (fun k v => if k = "items" then Json.arr ys else v) "items" fs,
        hany, if_pos rfl]
      simp
  · intro s v hparse hnone
    simp [processJsonResourceManifest, hparse, hnone]

/-- Witness for C3: the mixed list fixture, hypotheses discharged by
`rfl`. -/
theorem C3_witness :
    lookupJ c3MixedListFields "items" = Json.arr [c3SecretItem, c3ServiceItem]
    ∧ [c3SecretItem, c3ServiceItem].mapM redactJsonItemE
        = some [c3SecretItemMasked, c3ServiceItem]
    ∧ ∃ w, redactJsonValueE (Json.obj c3MixedListFields) = some w
        ∧ jGet w "items" = Json.arr [c3SecretItemMasked, c3ServiceItem] :=
  ⟨rfl, rfl,
    C3_amended.2.1 c3MixedListFields [c3SecretItem, c3ServiceItem]
      [c3SecretItemMasked, c3ServiceItem] rfl rfl⟩

/-- Claim C6, counterexample.  The claim says resolution removes every name
in the union of the CLI, file-config and default exclude-lists.  But a file
config that supplies its own exclude-list replaces the defaults (the deep
merge overwrites arrays), so with a file config excluding only `x`, the
default-excluded `kube-system` survives resolution. -/
theorem C6_counterexample :
    resolveNamespaces ⟨none, some ["x"]⟩ ⟨none, none⟩ ["kube-system", "a"]
      = ["kube-system", "a"]
    ∧ defaultExcludeNamespaces.contains "kube-system" = true
    ∧ resolveNamespaces ⟨none, some ["x"]⟩ ⟨none, none⟩ ["kube-system", "a"] ≠ ["a"] := by
  exact ⟨rfl, rfl, by decide⟩

/-- Claim C4, confirmed.  When the input does not pass the format sniff or
fails to parse as the declared format, both redactors return the input
string unchanged (the embedded functions are total, so nothing is
raised). -/
theorem C4_parse_failure_passthrough (s : String) :
    (yamlLooksLikeManifest s = false → processResourceManifest s true = s)
    ∧ (yamlParseAllDocs s = none → processResourceManifest s true = s)
    ∧ (jsonSniff s = false → processJsonResourceManifest s true = s)
    ∧ (jsonParse s = none → processJsonResourceManifest s true = s) := by
  refine ⟨?_, ?_, ?_, ?_⟩ <;> intro h
  · simp [processResourceManifest, h]
  · simp [processResourceManifest, h]
  · simp [processJsonResourceManifest, h]
  · simp [processJsonResourceManifest, h]

/-- Witness for C4: a string that is neither a manifest nor JSON is
returned unchanged by both redactors. -/
theorem C4_witness :
    yamlLooksLikeManifest "plain text" = false
    ∧ processResourceManifest "plain text" true = "plain text"
    ∧ jsonSniff "plain text" = false
    ∧ processJsonResourceManifest "plain text" true = "plain text" :=
  ⟨rfl, (C4_parse_failure_passthrough "plain text").1 rfl, rfl,
    (C4_parse_failure_passthrough "plain text").2.2.1 rfl⟩

/-- Claim C8, counterexample.  The claim says a namespace with no resources
appears with an explicit "none" marker.  In the code such a namespace gets
a bare header and the loop `continue`s; the `# none` branch is unreachable.
The tree for one empty namespace is exactly the bare name. -/
theorem C8_counterexample :
    generateResourceTreeString ["ns1"] (some []) = "ns1"
    ∧ strContains (generateResourceTreeString ["ns1"] (some [])) "none" = false := by
  exact ⟨rfl, rfl⟩

/-- Claim C6, amended.  Namespace scope resolution starts from the CLI
include-list when non-empty, else the file include-list when non-empty,
else all discovered namespaces, and removes (case-sensitive exact match)
every name in the union of the CLI exclude-list with the *effective* lower
level exclude-list: the file-config exclude-list when the file supplies
one, otherwise the defaults — a supplied file exclude-list replaces the
defaults rather than unioning with them.  The claim's concrete scenario
(file includes `a,b`, CLI excludes `b`) still resolves to exactly `a`. -/
theorem C6_amended (fileF cliF : NsFilterConfig) (avail : List String) (ns : String) :
    (ns ∈ resolveNamespaces fileF cliF avail ↔
      (ns ∈ scopeBase fileF cliF avail
        ∧ ¬ ns ∈ cliF.excludeNamespaces.getD []
        ∧ ¬ ns ∈ fileF.excludeNamespaces.getD defaultExcludeNamespaces))
    ∧ resolveNamespaces ⟨some ["a", "b"], none⟩ ⟨none, some ["b"]⟩ ["a", "b", "kube-system"]
        = ["a"] := by
  refine ⟨?_, rfl⟩
  rw [show resolveNamespaces fileF cliF avail
        = getNamespacesToQuery (mergeNsFilterConfigs fileF cliF) avail from rfl]
  rw [mem_getNamespacesToQuery]
  rcases fileF with ⟨fns, fex⟩
  rcases cliF with ⟨cns, cex⟩
  have hbase : (match (mergeNsFilterConfigs ⟨fns, fex⟩ ⟨cns, cex⟩).namespaces with
                | some l => if l.isEmpty then avail else l
                | none => avail)
      = scopeBase ⟨fns, fex⟩ ⟨cns, cex⟩ avail := by
    unfold mergeNsFilterConfigs scopeBase
    cases cns with
    | none => rfl
    | some l =>
      by_cases hl : l.isEmpty <;> simp [hl]
  have hexm : ns ∈ (mergeNsFilterConfigs ⟨fns, fex⟩ ⟨cns, cex⟩).excludeNamespaces.getD []
      ↔ (ns ∈ cex.getD [] ∨ ns ∈ fex.getD defaultExcludeNamespaces) := by
    unfold mergeNsFilterConfigs
    cases cex with
    | none => simp
    | some l =>
      by_cases hl : l.isEmpty
      · rw [List.isEmpty_iff] at hl
        subst hl
        simp
      · simp [hl, mem_dedupKeepFirst, or_comm]
  rw [hbase]
  constructor
  · rintro ⟨h1, h2⟩
    rw [hexm] at h2
    push_neg at h2
    exact ⟨h1, h2.1, h2.2⟩
  · rintro ⟨h1, h2, h3⟩
    refine ⟨h1, ?_⟩
    rw [hexm]
    rintro (h | h)
    · exact h2 h
    · exact h3 h

/-- Claim C8, amended.  For a resolved namespace list of size N (names not
starting with a blank — indentation distinguishes headers), the tree lines
contain exactly N namespace header lines (the unindented ones), they are
exactly the lexicographically sorted namespace list (so each given
namespace appears exactly as often as it was given, once for a duplicate
free scope), and an empty namespace still contributes its bare header — but
with no "none" marker. -/
theorem C8_amended (namespaces : List String)
    (m : List (String × List (String × List String)))
    (h : ∀ ns ∈ namespaces, lineStartsWithBlank ns = false) :
    (buildTreeLines namespaces m).filter (fun l => !(lineStartsWithBlank l))
        = List.insertionSort (fun a b : String => a ≤ b) namespaces
    ∧ ((buildTreeLines namespaces m).filter (fun l => !(lineStartsWithBlank l))).length
        = namespaces.length
    ∧ List.Sorted (fun a b : String => a ≤ b)
        ((buildTreeLines namespaces m).filter (fun l => !(lineStartsWithBlank l))) := by
  have hsortmem : ∀ ns ∈ List.insertionSort (fun a b : String => a ≤ b) namespaces,
      lineStartsWithBlank ns = false := by
    intro ns hns
    exact h ns ((List.perm_insertionSort _ namespaces).mem_iff.mp hns)
  have hmain : (buildTreeLines namespaces m).filter (fun l => !(lineStartsWithBlank l))
      = List.insertionSort (fun a b : String => a ≤ b) namespaces :=
    headers_of_flatMap m (List.insertionSort (fun a b : String => a ≤ b) namespaces) hsortmem
  refine ⟨hmain, ?_, ?_⟩
  · rw [hmain]
    exact (List.perm_insertionSort _ namespaces).length_eq
  · rw [hmain]
    exact List.sorted_insertionSort _ namespaces

/-- Witness for C8: namespaces `b`, `a` where only `a` has resources; the
headers are exactly the sorted pair. -/
theorem C8_witness :
    (∀ ns ∈ (["b", "a"] : List String), lineStartsWithBlank ns = false)
    ∧ (buildTreeLines ["b", "a"] [("a", [("pods", ["p1"])])]).filter
        (fun l => !(lineStartsWithBlank l))
      = List.insertionSort (fun a b : String => a ≤ b) ["b", "a"] :=
  ⟨by decide, (C8_amended ["b", "a"] [("a", [("pods", ["p1"])])] (by decide)).1⟩

/-- Claim C9, confirmed.  If the fetch of one resolved namespace throws (in
either external call it makes), that namespace's task stores an empty
contribution, produces no block and logs the error, while the assembled
block list equals the one for the remaining namespaces — failures never
escape the task boundary (the embedded task is total). -/
theorem C9_partial_failure_isolation (configFormat : String) (redactSecrets : Bool)
    (oracle : String → NsOracle) (namespaces : List String) (nsF : String)
    (h : nsFetchThrows (oracle nsF) = true) :
    (runNsTask configFormat redactSecrets (oracle nsF) nsF).stored = []
    ∧ (runNsTask configFormat redactSecrets (oracle nsF) nsF).block = none
    ∧ (runNsTask configFormat redactSecrets (oracle nsF) nsF).loggedError = true
    ∧ aggregateBlocks configFormat redactSecrets oracle namespaces
        = aggregateBlocks configFormat redactSecrets oracle
            (namespaces.filter (fun ns => !(ns == nsF))) := by
  obtain ⟨h1, h2, h3⟩ := runNsTask_throws configFormat redactSecrets (oracle nsF) nsF h
  refine ⟨h1, h2, h3, ?_⟩
  unfold aggregateBlocks
  induction namespaces with
  | nil => rfl
  | cons x t ih =>
    by_cases hx : x = nsF
    · subst hx
      simp [List.filterMap_cons, h2, ih]
    · have hx2 : (x == nsF) = false := by simp [hx]
      simp only [List.filterMap_cons, List.filter_cons, hx2, Bool.not_false, if_true]
      cases hb : (runNsTask configFormat redactSecrets (oracle x) x).block with
      | none => simpa [List.filterMap_cons, hb] using ih
      | some b => simpa [List.filterMap_cons, hb] using congrArg (List.cons b) ih

/-- Witness for C9: of three namespaces, `bad` throws on both calls; its
effects are empty and the block list equals that of the other two. -/
theorem C9_witness :
    nsFetchThrows (c9Oracle "bad") = true
    ∧ ((runNsTask "text" true (c9Oracle "bad") "bad").stored = []
        ∧ (runNsTask "text" true (c9Oracle "bad") "bad").block = none
        ∧ (runNsTask "text" true (c9Oracle "bad") "bad").loggedError = true
        ∧ aggregateBlocks "text" true c9Oracle ["a", "bad", "c"]
            = aggregateBlocks "text" true c9Oracle
                (["a", "bad", "c"].filter (fun ns => !(ns == "bad")))) :=
  ⟨rfl, C9_partial_failure_isolation "text" true c9Oracle ["a", "bad", "c"] "bad" rfl⟩

/-- Claim C10, confirmed.  The `secretsFound` metric is literally
`config.security?.redactSecrets === true`: it does not depend on any of the
run's data (namespaces, counts, sizes), it is `true` whenever redaction was
enabled and `false` whenever it was disabled or unset. -/
theorem C10_secretsFound_is_config_flag (redactSecrets : Option Bool)
    (namespaceNames nn2 : List String) (counts counts2 : List (String × Nat))
    (tc tc2 tt tt2 : Nat) :
    (computeMetrics redactSecrets namespaceNames counts tc tt).secretsFound
        = (computeMetrics redactSecrets nn2 counts2 tc2 tt2).secretsFound
    ∧ (computeMetrics (some true) namespaceNames counts tc tt).secretsFound = true
    ∧ (computeMetrics (some false) namespaceNames counts tc tt).secretsFound = false
    ∧ (computeMetrics none namespaceNames counts tc tt).secretsFound = false := by
  exact ⟨rfl, rfl, rfl, rfl⟩

end Kubemix
